import Mathlib

/-!
Shallow embedding of `data.py` of open-unmix-pytorch (the dataset /
mixture-construction pipeline) and proofs about its claimed properties.

Modelling conventions:
* Audio sample values are rationals (`ℚ`); a waveform is channel-major,
  `List (List ℚ)`, matching the `(channels, samples)` tensor convention.
* An audio file on disk is `AudioFile`: sample rate, channel count, number of
  samples per channel, and a sample function.  `readOk = false` models a file
  whose metadata probe succeeds but whose windowed read raises a decode error
  (`RuntimeError` in the source).
* Python's process-wide RNG is an oracle: `u : ℕ → ℚ` yields the successive
  `random.random()`-style unit draws (`random.uniform(a, b) = a + (b-a)*u`),
  and `c : ℕ → ℕ` yields successive `random.choice` picks (taken mod the list
  length).  Counters are threaded explicitly in exactly the order the source
  consumes draws.
* Exceptions that propagate out of `__getitem__` are `none`; the
  retry-by-adjacent-index recursion of the source is unbounded, so the
  recursive facades take a fuel argument, and exhausted fuel (which in the
  source is a `RecursionError`) is also `none`.
* Python `int()` truncation on the nonnegative quantities occurring here is
  `Int.floor` followed by `Int.toNat`.
-/

/-- Channel-major waveform: outer list indexes channels. -/
abbrev Waveform := List (List ℚ)

/-- Per-channel sample counts of a waveform (the full rectangular shape). -/
def rowLens (w : Waveform) : List ℕ := w.map List.length

/-- Number of samples per channel, i.e. `tensor.shape[1]` for the rectangular
waveforms produced by the loaders (first channel's length). -/
def shape1 (w : Waveform) : ℕ := (w.head?.getD []).length

/-- Tensor shape `(channels, samples)` of a waveform. -/
def wshape (w : Waveform) : ℕ × ℕ := (w.length, shape1 w)

/-- Sample-wise sum of two waveforms (`+` on tensors). -/
def waveAdd (a b : Waveform) : Waveform := List.zipWith (List.zipWith (· + ·)) a b

/-- Sample-wise difference of two waveforms (`-` on tensors). -/
def waveSub (a b : Waveform) : Waveform := List.zipWith (List.zipWith (· - ·)) a b

/-- `torch.stack(ws).sum(0)` on a non-empty stack: sample-wise sum of all
stems. -/
def waveSum : List Waveform → Waveform
  | [] => []
  | w :: ws => ws.foldl waveAdd w

/-- `torch.stack`: fails (raises) unless the list is non-empty and all
waveforms share one shape. -/
def torchStack (ws : List Waveform) : Option (List Waveform) :=
  match ws with
  | [] => none
  | w :: rest => if rest.all (fun v => rowLens v = rowLens w) then some (w :: rest) else none

/-- Python `int()` for the nonnegative rationals that occur in this code. -/
def pyInt (q : ℚ) : ℤ := ⌊q⌋

/-- An audio file as seen through the decoding backend: metadata plus a
sample function.  `readOk = false` models a file whose probe succeeds but
whose windowed read raises (decode error). -/
structure AudioFile where
  samplerate : ℕ
  channels : ℕ
  samples : ℕ
  sample : ℕ → ℕ → ℚ
  readOk : Bool := true

/-- Duration in seconds reported by `audioinfo` (`samples / samplerate`). -/
def fileDuration (f : AudioFile) : ℚ := (f.samples : ℚ) / (f.samplerate : ℚ)

/-- Read `n` frames starting at frame `offset`, channel-major. -/
def readFrames (f : AudioFile) (offset n : ℕ) : Waveform :=
  (List.range f.channels).map (fun ch => (List.range n).map (fun i => f.sample ch (offset + i)))

/-- `audioloader` (= `torchaudio_loader`; the `soundfile` path computes the
same window): `dur = None` loads the full file, otherwise
`int(dur * samplerate)` frames from offset `int(start * samplerate)`,
returning fewer frames when the file ends early.  `none` models the
`RuntimeError` raised on a corrupt file. -/
def audioloader (f : AudioFile) (start : ℚ) (dur : Option ℚ) : Option Waveform :=
  if f.readOk then
    match dur with
    | none => some (readFrames f 0 f.samples)
    | some d =>
        let numFrames := (pyInt (d * (f.samplerate : ℚ))).toNat
        let offset := (pyInt (start * (f.samplerate : ℚ))).toNat
        some (readFrames f offset (min numFrames (f.samples - offset)))
  else none

/-- `random.uniform(a, b) = a + (b - a) * random.random()`; `v` is the unit
draw supplied by the RNG oracle. -/
def uniform (a b v : ℚ) : ℚ := a + (b - a) * v

/-- `random.choice(l)` given a pick `k` from the RNG oracle; raises
(`none`) on an empty list. -/
def pyChoice {α : Type} (l : List α) (k : ℕ) : Option α := l.get? (k % l.length)

/-- The `seq_duration` normalisation shared by the folder facades'
constructors: `if seq_duration <= 0: self.seq_duration = None`.  Passing the
declared default `None` makes Python raise `TypeError` on `None <= 0`,
modelled as `none` (construction fails). -/
def initSeqDuration : Option ℚ → Option (Option ℚ)
  | none => none
  | some q => some (if q ≤ 0 then none else some q)

/-- Option-valued `map` over a list, propagating the first failure (the
uncaught exception behaviour of `list(map(...))`). -/
def mapOpt {α β : Type} (f : α → Option β) : List α → Option (List β)
  | [] => some []
  | a :: l => do
      let b ← f a
      let l' ← mapOpt f l
      pure (b :: l')

/-!  UnalignedSources  -/

/-- `UnalignedSources` after construction: `sources` holds one file list per
source folder, in the order `interferences ++ [target]` of the source. -/
structure UnalignedSources where
  seqDuration : Option ℚ
  sources : List (List AudioFile)
  nbSamples : ℕ

/-- `UnalignedSources.load_audio`: full-file or `seq_duration`-long load from
the start of the file. -/
def UnalignedSources.load_audio (ds : UnalignedSources) (f : AudioFile) : Option Waveform :=
  audioloader f 0 ds.seqDuration

/-- `random_product(*self.sources)`: one `random.choice` per folder, in
order. -/
def random_product (c : ℕ → ℕ) (k : ℕ) : List (List AudioFile) → Option (List AudioFile)
  | [] => some []
  | pool :: rest => do
      let x ← pyChoice pool (c k)
      let xs ← random_product c (k + 1) rest
      pure (x :: xs)

/-- `UnalignedSources.__getitem__`, also exposing the loaded stems.  The
`index` argument is bound but never consulted by the source.  Returns
`(sample_sources, mix, target)`. -/
def UnalignedSources.getitemAux (ds : UnalignedSources) (c : ℕ → ℕ) (_index : ℕ) :
    Option (List Waveform × Waveform × Waveform) := do
  let inputTuple ← random_product c 0 ds.sources
  let sampleSources ← mapOpt ds.load_audio inputTuple
  let stems ← torchStack sampleSources
  let mix := waveSum stems
  let lastFile ← inputTuple.getLast?
  let target ← ds.load_audio lastFile
  pure (sampleSources, mix, target)

/-- `UnalignedSources.__getitem__`: the `(mix, target)` pair. -/
def UnalignedSources.getitem (ds : UnalignedSources) (c : ℕ → ℕ) (index : ℕ) :
    Option (Waveform × Waveform) :=
  (ds.getitemAux c index).map (fun r => (r.2.1, r.2.2))

/-- `UnalignedSources.__len__` is the configured `nb_samples` constant. -/
def UnalignedSources.len (ds : UnalignedSources) : ℕ := ds.nbSamples

/-!  Augmentations  -/

/-- `augment_source_channelswap`: flip the channel axis of a 2-channel
waveform with probability one half (`v` is the `random.random()` draw). -/
def augment_source_channelswap (v : ℚ) (audio : Waveform) : Waveform :=
  if audio.length = 2 ∧ v < 1 / 2 then audio.reverse else audio

/-- `augment_source_gain`: scale by a gain drawn uniformly from
`[0.25, 1.25]`. -/
def augment_source_gain (v : ℚ) (audio : Waveform) : Waveform :=
  audio.map (fun ch => ch.map (fun s => s * uniform (1 / 4) (5 / 4) v))

/-!  AlignedSources  -/

/-- `AlignedSources` after construction: `tuplePaths` pairs each track
folder's input file with its output file; `randomExcerpt = (split == 'train')`. -/
structure AlignedSources where
  seqDuration : Option ℚ
  randomExcerpt : Bool
  tuplePaths : List (AudioFile × AudioFile)

/-- The retry index of the source's recovery policy:
`index - 1 if index > 0 else index + 1`. -/
def retryIndex (i : ℕ) : ℕ := if 0 < i then i - 1 else i + 1

/-- Outcome of one body of `AlignedSources.__getitem__` before the recursive
retry: success, retry at a new index (recording how many unit draws were
consumed), or an uncaught exception. -/
inductive AlignedStep where
  | ok (x y : Waveform)
  | retry (index used : ℕ)
  | fatal

/-- One body of `AlignedSources.__getitem__` at `index`; `draw` is the unit
draw the body would consume for `random.uniform` (train split only).
`fatal` covers the `IndexError` on `tuple_paths[index]` and the `TypeError`
raised when `seq_duration` is `None` (compared with a float at the
too-short check, or multiplied by a samplerate at the post-load length
check). -/
def AlignedSources.attempt (ds : AlignedSources) (draw : ℚ) (index : ℕ) : AlignedStep :=
  match ds.tuplePaths.get? index with
  | none => .fatal
  | some (fin, fout) =>
    let cont := fun (start : ℚ) (used : ℕ) =>
      match audioloader fin start ds.seqDuration, audioloader fout start ds.seqDuration with
      | some X, some Y =>
          match ds.seqDuration with
          | none => AlignedStep.fatal
          | some d =>
            if (shape1 X : ℤ) < pyInt (d * (fin.samplerate : ℚ)) ∨
               (shape1 Y : ℤ) < pyInt (d * (fout.samplerate : ℚ))
            then .retry (retryIndex index) used
            else .ok X Y
      | _, _ => .retry (retryIndex index) used
    if ds.randomExcerpt then
      match ds.seqDuration with
      | none => .fatal
      | some d =>
        let duration := min (fileDuration fin) (fileDuration fout)
        if duration < d then .retry (retryIndex index) 0
        else cont (uniform 0 (duration - d) draw) 1
    else cont 0 0

/-- `AlignedSources.__getitem__` with fuel bounding the retry recursion;
`k` is the position in the unit-draw stream `u`. -/
def AlignedSources.getitem (ds : AlignedSources) (u : ℕ → ℚ) :
    ℕ → ℕ → ℕ → Option (Waveform × Waveform)
  | 0, _, _ => none
  | fuel + 1, k, index =>
    match ds.attempt (u k) index with
    | .ok x y => some (x, y)
    | .retry i used => ds.getitem u fuel (k + used) i
    | .fatal => none

/-!  MixedSources  -/

/-- One track folder of `MixedSources`: the stem files it contains, by file
name. -/
abbrev MixedTrack := List (String × AudioFile)

/-- Stem lookup in a track folder (`track_dir / source` plus the
`exists()` test, or the corpus `sources[name]` mapping). -/
def lookupStem (t : MixedTrack) (name : String) : Option AudioFile :=
  (t.find? (fun p => p.1 == name)).map Prod.snd

/-- `MixedSources` after construction;
`augmentations = (split == 'train')` is the flag `__getitem__` consults for
random track choice (`random_excerpt` is assigned but never read). -/
structure MixedSources where
  seqDuration : Option ℚ
  augmentations : Bool
  interferers : List String
  targetFile : String
  tracks : List MixedTrack

/-- Outcome of the per-source loop of `MixedSources.__getitem__`. -/
inductive MixedStep where
  | ok (stems : List Waveform) (ku kc : ℕ)
  | retry (index ku kc : ℕ)
  | fatal

/-- The `for source in sources` loop of `MixedSources.__getitem__`.
For each source: pick the track (random when `augmentations`, else
`tracks[index]`), test existence (a missing stem retries at the SAME
index, line 417 of the source), compare the track duration against
`seq_duration` (TypeError when the latter is `None`), draw a fresh
random start for THIS source, and load (a decode error retries at the
adjacent index). -/
def mixedLoop (ds : MixedSources) (u : ℕ → ℚ) (c : ℕ → ℕ) (index : ℕ) :
    List String → List Waveform → ℕ → ℕ → MixedStep
  | [], acc, ku, kc => .ok acc ku kc
  | src :: rest, acc, ku, kc =>
    let pick : Option MixedTrack × ℕ :=
      if ds.augmentations then (pyChoice ds.tracks (c kc), kc + 1)
      else (ds.tracks.get? index, kc)
    match pick.1 with
    | none => .fatal
    | some track =>
      match lookupStem track src with
      | none => .retry index ku pick.2
      | some f =>
        match ds.seqDuration with
        | none => .fatal
        | some d =>
          let duration := fileDuration f
          if duration < d then .retry (retryIndex index) ku pick.2
          else
            let start := uniform 0 (duration - d) (u ku)
            match audioloader f start ds.seqDuration with
            | none => .retry (retryIndex index) (ku + 1) pick.2
            | some X => mixedLoop ds u c index rest (acc ++ [X]) (ku + 1) pick.2

/-- `MixedSources.__getitem__` (with fuel), also exposing the loaded stems:
returns `(stems, mix, target)` where the mix is the stacked sum and the
target is the last stem. -/
def MixedSources.getitemAux (ds : MixedSources) (u : ℕ → ℚ) (c : ℕ → ℕ) :
    ℕ → ℕ → ℕ → ℕ → Option (List Waveform × Waveform × Waveform)
  | 0, _, _, _ => none
  | fuel + 1, ku, kc, index =>
    match mixedLoop ds u c index (ds.interferers ++ [ds.targetFile]) [] ku kc with
    | .fatal => none
    | .retry i ku' kc' => ds.getitemAux u c fuel ku' kc' i
    | .ok acc _ _ =>
      match torchStack acc with
      | none => none
      | some stems =>
        match stems.getLast? with
        | none => none
        | some y => some (stems, waveSum stems, y)

/-- `MixedSources.__getitem__`: the `(mix, target)` pair. -/
def MixedSources.getitem (ds : MixedSources) (u : ℕ → ℚ) (c : ℕ → ℕ)
    (fuel ku kc index : ℕ) : Option (Waveform × Waveform) :=
  (ds.getitemAux u c fuel ku kc index).map (fun r => (r.2.1, r.2.2))

/-!  MUSDBDataset  -/

/-- One track of the external `musdb` corpus provider.  Stem audio is
recorded channel-major: the `.audio.T` transpose at the provider boundary is
folded into the model.  `audio` is the provider's pre-mixed track used for
non-train splits; `targets` is the provider's `targets` mapping. -/
structure MusTrack where
  duration : ℚ
  sources : List (String × AudioFile)
  audio : AudioFile
  targets : List (String × AudioFile)

/-- The `musdb.DB` handle: the ordered source names of `mus.setup['sources']`
and the track list. -/
structure MusDB where
  setupSources : List String
  tracks : List MusTrack

/-- `MUSDBDataset` after construction. -/
structure MUSDBDataset where
  target : String
  isTrainSplit : Bool
  seqDuration : Option ℚ
  samplesPerTrack : ℕ
  randomTrackMix : Bool
  mus : MusDB

/-- Reading a stem of a corpus track through the chunk window
`(chunk_start, chunk_duration)` set on the track (provider-side windowed
read, channel-major). -/
def chunkRead (f : AudioFile) (start : ℚ) (dur : Option ℚ) : Waveform :=
  match dur with
  | none => readFrames f 0 f.samples
  | some d =>
      let numFrames := (pyInt (d * (f.samplerate : ℚ))).toNat
      let offset := (pyInt (start * (f.samplerate : ℚ))).toNat
      readFrames f offset (min numFrames (f.samples - offset))

/-- Outcome of the per-source loop of `MUSDBDataset.__getitem__` in the
train split. -/
inductive MusStep where
  | ok (stems : List Waveform) (targetInd : Option ℕ) (ku kc : ℕ)
  | fatal

/-- The `for k, source in enumerate(self.mus.setup['sources'])` loop of
`MUSDBDataset.__getitem__` (train split).  `aug` is the
`source_augmentations` callable, indexed by loop position to account for its
own fresh random draws per stem.  A `KeyError` on `track.sources[source]`,
or the `TypeError` from `track.duration - None` when `seq_duration` is
`None`, propagates (`fatal`). -/
def musdbLoop (ds : MUSDBDataset) (aug : ℕ → Waveform → Waveform) (u : ℕ → ℚ) (c : ℕ → ℕ)
    (track0 : MusTrack) :
    List String → ℕ → List Waveform → Option ℕ → ℕ → ℕ → MusStep
  | [], _, acc, ti, ku, kc => .ok acc ti ku kc
  | src :: rest, kidx, acc, ti, ku, kc =>
    let ti' := if src = ds.target then some kidx else ti
    let pick : Option MusTrack × ℕ :=
      if ds.randomTrackMix then (pyChoice ds.mus.tracks (c kc), kc + 1)
      else (some track0, kc)
    match pick.1 with
    | none => .fatal
    | some track =>
      match ds.seqDuration with
      | none => .fatal
      | some d =>
        let start := uniform 0 (track.duration - d) (u ku)
        match lookupStem track.sources src with
        | none => .fatal
        | some f =>
            musdbLoop ds aug u c track0 rest (kidx + 1)
              (acc ++ [aug kidx (chunkRead f start (some d))]) ti' (ku + 1) pick.2

/-- `MUSDBDataset.__getitem__`, also exposing the loaded stems (empty list
in the non-train branch, which never stacks stems): returns
`(stems, x, y)`. -/
def MUSDBDataset.getitemAux (ds : MUSDBDataset) (aug : ℕ → Waveform → Waveform)
    (u : ℕ → ℚ) (c : ℕ → ℕ) (index : ℕ) :
    Option (List Waveform × Waveform × Waveform) :=
  match ds.mus.tracks.get? (index / ds.samplesPerTrack) with
  | none => none
  | some track =>
    if ds.isTrainSplit then
      match musdbLoop ds aug u c track ds.mus.setupSources 0 [] none 0 0 with
      | .fatal => none
      | .ok acc ti _ _ =>
        match torchStack acc with
        | none => none
        | some stems =>
          let x := waveSum stems
          match ti with
          | some t =>
              match stems.get? t with
              | none => none
              | some y => some (stems, x, y)
          | none =>
              match ds.mus.setupSources.findIdx? (fun s => s = "vocals") with
              | none => none
              | some vi =>
                  match stems.get? vi with
                  | none => none
                  | some yv => some (stems, x, waveSub x yv)
    else
      match lookupStem track.targets ds.target with
      | none => none
      | some tf =>
          some ([], readFrames track.audio 0 track.audio.samples, readFrames tf 0 tf.samples)

/-- `MUSDBDataset.__getitem__`: the `(x, y)` pair. -/
def MUSDBDataset.getitem (ds : MUSDBDataset) (aug : ℕ → Waveform → Waveform)
    (u : ℕ → ℚ) (c : ℕ → ℕ) (index : ℕ) : Option (Waveform × Waveform) :=
  (ds.getitemAux aug u c index).map (fun r => (r.2.1, r.2.2))

/-!  Concrete fixtures used by counterexamples and witnesses. -/

/-- RNG oracle that always picks list element 0. -/
def zeroPick : ℕ → ℕ := fun _ => 0

/-- Unit-draw oracle that always returns 0 (`random.random() = 0`). -/
def zeroDraw : ℕ → ℚ := fun _ => 0

/-- Unit-draw oracle that always returns one half. -/
def halfDraw : ℕ → ℚ := fun _ => 1 / 2

/-- Unit-draw oracle returning 0 first and one half afterwards. -/
def stepDraw : ℕ → ℚ := fun n => if n = 0 then 0 else 1 / 2

/-- Identity `source_augmentations` (the `MUSDBDataset` default). -/
def augId : ℕ → Waveform → Waveform := fun _ w => w

/-- Mono file, 4 samples at 4 Hz (1 second). -/
def fileMono4 : AudioFile := ⟨4, 1, 4, fun _ i => i, true⟩

/-- Same file as `fileMono4` but with a corrupt payload (decode error on
read). -/
def fileBad : AudioFile := ⟨4, 1, 4, fun _ i => i, false⟩

/-- Stereo file, 4 samples per channel at 2 Hz (2 seconds). -/
def fileStereo : AudioFile := ⟨2, 2, 4, fun ch i => ch + i, true⟩

/-- Mono file, 4 samples at 2 Hz (2 seconds). -/
def fileMono2Hz : AudioFile := ⟨2, 1, 4, fun _ i => i, true⟩

/-- Mono file, 3 samples at 3 Hz (1 second). -/
def fileMono3Hz : AudioFile := ⟨3, 1, 3, fun _ i => i, true⟩

/-- Mono file, 4 samples at 1 Hz (4 seconds). -/
def fileMono1Hz4 : AudioFile := ⟨1, 1, 4, fun _ i => i, true⟩

/-- Mono file, 8 samples at 1 Hz (8 seconds). -/
def fileMono1Hz8 : AudioFile := ⟨1, 1, 8, fun _ i => i, true⟩

/-- Mono 2-sample files at 1 Hz with distinct contents. -/
def fileTen : AudioFile := ⟨1, 1, 2, fun _ i => 10 + i, true⟩

/-- Second distinct 2-sample file. -/
def fileTwenty : AudioFile := ⟨1, 1, 2, fun _ i => 20 + i, true⟩

/-- Unaligned dataset whose only file is shorter than the requested
2-second excerpt. -/
def dsUnShort : UnalignedSources := ⟨some 2, [[fileMono4]], 1000⟩

/-- Unaligned dataset with one interference folder and one target folder. -/
def dsUnPair : UnalignedSources := ⟨some 1, [[fileTen], [fileTwenty]], 10⟩

/-- Aligned dataset whose input is stereo but whose output is mono (same
sample rate, both long enough). -/
def dsAlMismatch : AlignedSources := ⟨some 1, false, [(fileStereo, fileMono2Hz)]⟩

/-- Aligned dataset (eval split) with `seq_duration = 0.5` s at 3 Hz, so
`int(d * sr) = 1` while `round(d * sr) = 2`. -/
def dsAlHalf : AlignedSources := ⟨some (1 / 2), false, [(fileMono3Hz, fileMono3Hz)]⟩

/-- Aligned dataset (train split) with one valid stereo pair. -/
def dsAlTrain : AlignedSources := ⟨some 1, true, [(fileStereo, fileStereo)]⟩

/-- Aligned dataset (train split) whose files are all shorter than the
10-second request. -/
def dsAlShort : AlignedSources := ⟨some 10, true, [(fileMono4, fileMono4), (fileMono4, fileMono4)]⟩

/-- Aligned dataset (eval split) whose index-0 input file is corrupt while
index 1 is fine. -/
def dsAlBad : AlignedSources := ⟨some 1, false, [(fileBad, fileMono4), (fileMono4, fileMono4)]⟩

/-- Aligned dataset in full-length mode (as produced by construction with
`seq_duration <= 0`). -/
def dsAlFull : AlignedSources := ⟨none, false, [(fileMono4, fileMono4)]⟩

/-- Mixed dataset (eval split) whose track 0 is missing the target stem
`a` while track 1 has it. -/
def dsMixMissing : MixedSources := ⟨some 1, false, [], "a", [[("b", fileMono1Hz4)], [("a", fileMono1Hz4)]]⟩

/-- Mixed dataset (eval split), one track, two stems both read from the
same 8-second file. -/
def dsMixPair : MixedSources := ⟨some 2, false, ["a"], "a", [[("a", fileMono1Hz8)]]⟩

/-- Mixed dataset in full-length mode. -/
def dsMixFull : MixedSources := ⟨none, false, [], "a", [[("a", fileMono4)]]⟩

/-- Mono 2-sample stems for the curated corpus fixtures. -/
def fileVoc : AudioFile := ⟨1, 1, 2, fun _ i => 1 + i, true⟩

/-- Drum stem for the curated corpus fixtures. -/
def fileDrum : AudioFile := ⟨1, 1, 2, fun _ i => 5 + i, true⟩

/-- A curated-corpus track with vocals and drums stems. -/
def trackMus : MusTrack := ⟨2, [("vocals", fileVoc), ("drums", fileDrum)], fileVoc, []⟩

/-- A curated corpus with native sources `vocals` and `drums`. -/
def musCorpus : MusDB := ⟨["vocals", "drums"], [trackMus]⟩

/-- MUSDB dataset (train split) requesting the non-native target `acc`. -/
def dsMusAcc : MUSDBDataset := ⟨"acc", true, some 1, 1, false, musCorpus⟩

/-- Corpus track carrying a premixed `audio` and a `vocals` target stem of
the same shape. -/
def trackMusEval : MusTrack := ⟨2, [("vocals", fileVoc)], fileDrum, [("vocals", fileVoc)]⟩

/-- MUSDB dataset in the validation split. -/
def dsMusEval : MUSDBDataset := ⟨"vocals", false, some 6, 1, false, ⟨["vocals"], [trackMusEval]⟩⟩

/-- MUSDB dataset (train split) with `seq_duration = None`. -/
def dsMusFull : MUSDBDataset := ⟨"vocals", true, none, 1, false, musCorpus⟩

/-- Mixed dataset (eval split) whose only track is shorter than the
10-second request. -/
def dsMixShort : MixedSources := ⟨some 10, false, [], "a", [[("a", fileMono4)], [("a", fileMono1Hz8)]]⟩

/-!  Supporting lemmas  -/

theorem wshape_eq_of_rowLens_eq {a b : Waveform} (h : rowLens a = rowLens b) :
    wshape a = wshape b := by
  have hlen : a.length = b.length := by
    have h' := congrArg List.length h
    simpa [rowLens] using h'
  have hhd : a.head?.map List.length = b.head?.map List.length := by
    have h' := congrArg List.head? h
    simpa [rowLens, List.head?_map] using h'
  have h1 : shape1 a = shape1 b := by
    cases ha : a.head? with
    | none =>
        cases hb : b.head? with
        | none => simp [shape1, ha, hb]
        | some yb => rw [ha, hb] at hhd; simp at hhd
    | some ya =>
        cases hb : b.head? with
        | none => rw [ha, hb] at hhd; simp at hhd
        | some yb =>
            rw [ha, hb] at hhd
            simp only [Option.map_some', Option.some.injEq] at hhd
            simp [shape1, ha, hb, hhd]
  simp [wshape, hlen, h1]

theorem rowLens_zipWith (op : ℚ → ℚ → ℚ) :
    ∀ {a b : Waveform}, rowLens a = rowLens b →
      rowLens (List.zipWith (List.zipWith op) a b) = rowLens a := by
  intro a
  induction a with
  | nil => intro b _; simp [rowLens]
  | cons x a' ih =>
    intro b h
    cases b with
    | nil => simp [rowLens] at h
    | cons y b' =>
      simp only [rowLens, List.map_cons, List.cons.injEq] at h
      obtain ⟨hxy, hab⟩ := h
      have ih' := ih (b := b') hab
      simp only [List.zipWith_cons_cons, rowLens, List.map_cons, List.cons.injEq]
      constructor
      · rw [List.length_zipWith, hxy, min_self]
      · simpa [rowLens] using ih'

theorem rowLens_waveAdd {a b : Waveform} (h : rowLens a = rowLens b) :
    rowLens (waveAdd a b) = rowLens a := rowLens_zipWith _ h

theorem rowLens_waveSub {a b : Waveform} (h : rowLens a = rowLens b) :
    rowLens (waveSub a b) = rowLens a := rowLens_zipWith _ h

theorem rowLens_foldl_waveAdd :
    ∀ (rest : List Waveform) (acc : Waveform), (∀ v ∈ rest, rowLens v = rowLens acc) →
      rowLens (rest.foldl waveAdd acc) = rowLens acc := by
  intro rest
  induction rest with
  | nil => intro acc _; rfl
  | cons w rest ih =>
    intro acc h
    have hw : rowLens w = rowLens acc := h w (by simp)
    have h1 : rowLens (waveAdd acc w) = rowLens acc := rowLens_waveAdd hw.symm
    have hrec : rowLens (rest.foldl waveAdd (waveAdd acc w)) = rowLens (waveAdd acc w) := by
      refine ih (waveAdd acc w) ?_
      intro v hv
      rw [h1]
      exact h v (by simp [hv])
    simpa [List.foldl_cons, h1] using hrec

theorem rowLens_waveSum {w : Waveform} {rest : List Waveform}
    (h : ∀ v ∈ rest, rowLens v = rowLens w) :
    rowLens (waveSum (w :: rest)) = rowLens w :=
  rowLens_foldl_waveAdd rest w h

theorem torchStack_some {ws ws' : List Waveform} (h : torchStack ws = some ws') :
    ws' = ws ∧ ∃ w rest, ws = w :: rest ∧ ∀ v ∈ ws, rowLens v = rowLens w := by
  cases ws with
  | nil => simp [torchStack] at h
  | cons w rest =>
    by_cases hall : ∀ v ∈ rest, rowLens v = rowLens w
    · have hc : rest.all (fun v => rowLens v = rowLens w) = true := by
        simp only [List.all_eq_true, decide_eq_true_eq]
        exact hall
      rw [torchStack, if_pos hc] at h
      refine ⟨(Option.some.injEq _ _ ▸ h).symm, w, rest, rfl, ?_⟩
      intro v hv
      rcases List.mem_cons.mp hv with hv | hv
      · rw [hv]
      · exact hall v hv
    · have hc : ¬(rest.all (fun v => rowLens v = rowLens w) = true) := by
        simp only [List.all_eq_true, decide_eq_true_eq]
        exact hall
      rw [torchStack, if_neg hc] at h
      exact absurd h (by simp)

theorem length_readFrames (f : AudioFile) (off n : ℕ) :
    (readFrames f off n).length = f.channels := by
  simp [readFrames]

theorem rowLens_readFrames (f : AudioFile) (off n : ℕ) :
    rowLens (readFrames f off n) = List.replicate f.channels n := by
  simp only [rowLens, readFrames, List.map_map]
  refine List.eq_replicate_iff.mpr ⟨by simp, ?_⟩
  intro b hb
  simp only [List.mem_map, Function.comp] at hb
  obtain ⟨ch, _, hch⟩ := hb
  simpa using hch.symm

theorem shape1_readFrames (f : AudioFile) (off n : ℕ) (h : 0 < f.channels) :
    shape1 (readFrames f off n) = n := by
  obtain ⟨m, hm⟩ := Nat.exists_eq_succ_of_ne_zero (Nat.pos_iff_ne_zero.mp h)
  simp [shape1, readFrames, hm, List.range_succ_eq_map, List.head?_map]

theorem shape1_eq_of_rowLens_eq {a b : Waveform} (h : rowLens a = rowLens b) :
    shape1 a = shape1 b := by
  have h2 := congrArg Prod.snd (wshape_eq_of_rowLens_eq h)
  simpa [wshape] using h2

theorem mapOpt_getLast {α β : Type} {f : α → Option β} :
    ∀ {l : List α} {l' : List β} {a : α}, mapOpt f l = some l' → l.getLast? = some a →
      ∃ b, f a = some b ∧ l'.getLast? = some b := by
  intro l
  induction l with
  | nil => intro l' a h hl; simp at hl
  | cons x xs ih =>
    intro l' a h hl
    simp only [mapOpt, Option.bind_eq_bind, Option.bind_eq_some, Option.pure_def,
      Option.some.injEq] at h
    obtain ⟨b, hb, l'', hl'', rfl⟩ := h
    cases xs with
    | nil =>
        simp only [mapOpt, Option.some.injEq] at hl''
        subst hl''
        simp only [List.getLast?_singleton, Option.some.injEq] at hl
        subst hl
        exact ⟨b, hb, by simp⟩
    | cons y ys =>
        have hl2 : (y :: ys).getLast? = some a := by
          simpa [List.getLast?_cons_cons] using hl
        obtain ⟨b', hb', hlast⟩ := ih hl'' hl2
        refine ⟨b', hb', ?_⟩
        have : l'' ≠ [] := by
          intro hnil
          rw [hnil] at hlast
          simp at hlast
        cases l'' with
        | nil => simp at this
        | cons z zs => simpa [List.getLast?_cons_cons] using hlast

theorem pyChoice_mem {α : Type} {l : List α} {k : ℕ} {a : α} (h : pyChoice l k = some a) :
    a ∈ l :=
  List.get?_mem h

theorem lookupStem_mem {t : MixedTrack} {name : String} {f : AudioFile}
    (h : lookupStem t name = some f) : ∃ p ∈ t, p.2 = f := by
  unfold lookupStem at h
  obtain ⟨p, hp, hpf⟩ := Option.map_eq_some'.mp h
  exact ⟨p, List.mem_of_find?_eq_some hp, hpf⟩

theorem uniform_mem {a b v : ℚ} (hab : a ≤ b) (h0 : 0 ≤ v) (h1 : v ≤ 1) :
    a ≤ uniform a b v ∧ uniform a b v ≤ b := by
  unfold uniform
  constructor
  · nlinarith
  · nlinarith

theorem min_frames_full (f : AudioFile) (d s : ℚ) (hr : 0 < f.samplerate)
    (h0 : 0 ≤ s) (hsd : s + d ≤ fileDuration f) :
    min ((pyInt (d * (f.samplerate : ℚ))).toNat)
        (f.samples - (pyInt (s * (f.samplerate : ℚ))).toNat)
      = (pyInt (d * (f.samplerate : ℚ))).toNat := by
  set r : ℚ := (f.samplerate : ℚ) with hrdef
  have hrq : (0 : ℚ) < r := by rw [hrdef]; exact_mod_cast hr
  by_cases hd : ⌊d * r⌋ ≤ 0
  · have hz : (pyInt (d * r)).toNat = 0 := by
      simp only [pyInt]
      omega
    simp [hz]
  · push_neg at hd
    have hs0 : 0 ≤ ⌊s * r⌋ := Int.floor_nonneg.mpr (by positivity)
    have hadd : ⌊s * r⌋ + ⌊d * r⌋ ≤ ⌊s * r + d * r⌋ := by
      refine Int.le_floor.mpr ?_
      push_cast
      exact add_le_add (Int.floor_le _) (Int.floor_le _)
    have h2 : ⌊s * r + d * r⌋ ≤ (f.samples : ℤ) := by
      have hring : s * r + d * r = (s + d) * r := by ring
      rw [hring]
      have hle : (s + d) * r ≤ (f.samples : ℚ) := by
        have hmul := mul_le_mul_of_nonneg_right hsd (le_of_lt hrq)
        rwa [fileDuration, div_mul_cancel₀ _ (ne_of_gt hrq)] at hmul
      calc ⌊(s + d) * r⌋ ≤ ⌊((f.samples : ℚ))⌋ := Int.floor_le_floor hle
        _ = (f.samples : ℤ) := Int.floor_natCast _
    simp only [pyInt]
    omega

theorem min_eq_of_not_lt {T avail : ℕ} {iT : ℤ} (hT : (T : ℤ) = max iT 0)
    (h : ¬((Nat.cast (min T avail) : ℤ) < iT)) : min T avail = T := by omega

theorem getLast?_mem' {α : Type} {l : List α} {a : α} (h : l.getLast? = some a) : a ∈ l := by
  obtain ⟨hne, rfl⟩ := List.mem_getLast?_eq_getLast (l := l) (x := a) h
  exact List.getLast_mem hne

theorem shape1_of_rowLens_replicate {w : Waveform} {chn n : ℕ} (hch : 0 < chn)
    (h : rowLens w = List.replicate chn n) : shape1 w = n := by
  cases w with
  | nil =>
      simp only [rowLens, List.map_nil] at h
      have := congrArg List.length h
      simp at this
      omega
  | cons ch rest =>
      obtain ⟨m, hm⟩ := Nat.exists_eq_succ_of_ne_zero (Nat.pos_iff_ne_zero.mp hch)
      rw [hm] at h
      simp only [rowLens, List.map_cons, List.replicate_succ, List.cons.injEq] at h
      simp [shape1, h.1]

theorem audioloader_some_dur {f : AudioFile} {start d : ℚ} {X : Waveform}
    (h : audioloader f start (some d) = some X) :
    f.readOk = true ∧
    X = readFrames f ((pyInt (start * (f.samplerate : ℚ))).toNat)
          (min ((pyInt (d * (f.samplerate : ℚ))).toNat)
               (f.samples - (pyInt (start * (f.samplerate : ℚ))).toNat)) := by
  unfold audioloader at h
  cases hOk : f.readOk with
  | false => rw [hOk] at h; simp at h
  | true =>
      rw [hOk] at h
      simp only [if_true] at h
      exact ⟨rfl, (Option.some.injEq _ _ ▸ h).symm⟩

theorem AlignedSources.attempt_ok {ds : AlignedSources} {draw : ℚ} {i : ℕ} {X Y : Waveform}
    (h : ds.attempt draw i = .ok X Y) :
    ∃ fin fout d start,
      ds.tuplePaths.get? i = some (fin, fout) ∧ ds.seqDuration = some d ∧
      audioloader fin start (some d) = some X ∧ audioloader fout start (some d) = some Y ∧
      ¬((shape1 X : ℤ) < pyInt (d * (fin.samplerate : ℚ))) ∧
      ¬((shape1 Y : ℤ) < pyInt (d * (fout.samplerate : ℚ))) ∧
      (ds.randomExcerpt = true →
        ¬(min (fileDuration fin) (fileDuration fout) < d) ∧
        start = uniform 0 (min (fileDuration fin) (fileDuration fout) - d) draw) ∧
      (ds.randomExcerpt = false → start = 0) := by
  unfold AlignedSources.attempt at h
  cases hp : ds.tuplePaths.get? i with
  | none => rw [hp] at h; simp at h
  | some pair =>
      obtain ⟨fin, fout⟩ := pair
      rw [hp] at h
      simp only at h
      refine ⟨fin, fout, ?_⟩
      cases hre : ds.randomExcerpt with
      | true =>
          rw [hre] at h
          simp only [if_true] at h
          cases hsd : ds.seqDuration with
          | none => rw [hsd] at h; simp at h
          | some d =>
              rw [hsd] at h
              simp only at h
              by_cases hdur : min (fileDuration fin) (fileDuration fout) < d
              · rw [if_pos hdur] at h; simp at h
              · rw [if_neg hdur] at h
                set s := uniform 0 (min (fileDuration fin) (fileDuration fout) - d) draw with hs
                refine ⟨d, s, rfl, rfl, ?_⟩
                cases hX : audioloader fin s (some d) with
                | none => rw [hX] at h; simp at h
                | some Xv =>
                    cases hY : audioloader fout s (some d) with
                    | none => rw [hX, hY] at h; simp at h
                    | some Yv =>
                        rw [hX, hY] at h
                        simp only at h
                        by_cases hchk : (shape1 Xv : ℤ) < pyInt (d * (fin.samplerate : ℚ)) ∨
                            (shape1 Yv : ℤ) < pyInt (d * (fout.samplerate : ℚ))
                        · rw [if_pos hchk] at h; simp at h
                        · rw [if_neg hchk] at h
                          simp only [AlignedStep.ok.injEq] at h
                          obtain ⟨rfl, rfl⟩ := h
                          exact ⟨rfl, rfl, fun hc => hchk (Or.inl hc),
                            fun hc => hchk (Or.inr hc), fun _ => ⟨hdur, hs⟩,
                            fun hcontra => absurd hcontra (by simp)⟩
      | false =>
          rw [hre, if_neg Bool.false_ne_true] at h
          cases hX : audioloader fin 0 ds.seqDuration with
          | none => rw [hX] at h; simp at h
          | some Xv =>
              cases hY : audioloader fout 0 ds.seqDuration with
              | none => rw [hX, hY] at h; simp at h
              | some Yv =>
                  rw [hX, hY] at h
                  cases hsd : ds.seqDuration with
                  | none => rw [hsd] at h; simp at h
                  | some d =>
                      rw [hsd] at h
                      simp only at h
                      by_cases hchk : (shape1 Xv : ℤ) < pyInt (d * (fin.samplerate : ℚ)) ∨
                          (shape1 Yv : ℤ) < pyInt (d * (fout.samplerate : ℚ))
                      · rw [if_pos hchk] at h; simp at h
                      · rw [if_neg hchk] at h
                        simp only [AlignedStep.ok.injEq] at h
                        obtain ⟨rfl, rfl⟩ := h
                        rw [hsd] at hX hY
                        exact ⟨d, 0, rfl, rfl, hX, hY, fun hc => hchk (Or.inl hc),
                          fun hc => hchk (Or.inr hc),
                          fun hcontra => absurd hcontra (by simp),
                          fun _ => rfl⟩

/-!  Claim theorems  -/

/-- Claim C9: the channel-swap augmentation returns its input unchanged for
every waveform whose channel count is not 2, and on 2-channel waveforms it
is an involution when the swap occurs both times (unit draws below 1/2). -/
theorem C9_channelswap :
    (∀ (v : ℚ) (a : Waveform), a.length ≠ 2 → augment_source_channelswap v a = a) ∧
    (∀ (v1 v2 : ℚ) (a : Waveform), a.length = 2 → v1 < 1 / 2 → v2 < 1 / 2 →
      augment_source_channelswap v2 (augment_source_channelswap v1 a) = a) := by
  constructor
  · intro v a h
    simp [augment_source_channelswap, h]
  · intro v1 v2 a h h1 h2
    have hin : augment_source_channelswap v1 a = a.reverse := by
      rw [augment_source_channelswap, if_pos ⟨h, h1⟩]
    rw [hin, augment_source_channelswap, if_pos ⟨by simpa using h, h2⟩, List.reverse_reverse]

/-- Witness for C9 at concrete inputs: a mono waveform is untouched, and a
stereo waveform swapped twice (draw 0 both times) comes back unchanged. -/
theorem C9_channelswap_witness :
    augment_source_channelswap 0 [[1, 2, 3]] = [[1, 2, 3]] ∧
    augment_source_channelswap 0 (augment_source_channelswap 0 [[1, 2], [3, 4]])
      = [[1, 2], [3, 4]] :=
  ⟨C9_channelswap.1 0 [[1, 2, 3]] (by decide),
   C9_channelswap.2 0 0 [[1, 2], [3, 4]] (by decide) (by norm_num) (by norm_num)⟩

/-- Claim C10: `UnalignedSources.__getitem__` never reads its index
argument: with the same RNG state any two indices, in or out of the declared
range `[0, nb_samples)`, produce the same example, and `__len__` is the
unchecked constant `nb_samples`. -/
theorem C10_index_ignored :
    ∀ (ds : UnalignedSources) (c : ℕ → ℕ) (i j : ℕ),
      ds.getitem c i = ds.getitem c j ∧ ds.len = ds.nbSamples :=
  fun _ _ _ _ => ⟨rfl, rfl⟩

/-- Claim C6 (code bug): full-length mode is broken.  Construction with the
declared default `seq_duration=None` raises `TypeError` at
`seq_duration <= 0`; and after construction with a numeric
`seq_duration <= 0` (which does set full-length mode), every
`AlignedSources`/`MixedSources` `__getitem__` raises `TypeError`
(`int(None * samplerate)` resp. `duration < None`), as does the
`MUSDBDataset` train split (`track.duration - None`). -/
theorem C6_fulllength_mode_bug :
    initSeqDuration none = none ∧
    initSeqDuration (some 0) = some none ∧
    dsAlFull.getitem zeroDraw 3 0 0 = none ∧
    dsMixFull.getitem zeroDraw zeroPick 3 0 0 0 = none ∧
    dsMusFull.getitem augId zeroDraw zeroPick 0 = none := by
  refine ⟨rfl, by norm_num [initSeqDuration], by decide, by decide, by decide⟩

/-- Counterexample to claim C1 as stated: an `AlignedSources` pair whose
input file is stereo and whose output file is mono (equal sample rates,
both long enough) is returned with input shape `(2, 2)` and target shape
`(1, 2)` — the facade checks sample counts but never channel counts. -/
theorem C1_counterexample :
    (dsAlMismatch.getitem zeroDraw 1 0 0).map (fun p => (wshape p.1, wshape p.2))
      = some ((2, 2), (1, 2)) ∧ ((2, 2) : ℕ × ℕ) ≠ ((1, 2) : ℕ × ℕ) := by
  constructor
  · norm_num +decide [AlignedSources.getitem, AlignedSources.attempt, dsAlMismatch,
      fileStereo, fileMono2Hz, audioloader, readFrames, pyInt, fileDuration, uniform,
      zeroDraw, shape1, wshape, retryIndex, List.range_succ]
  · decide

/-- Counterexample to claim C2 as stated: `UnalignedSources` performs no
length validation, returning a 4-sample waveform where
`round(seq_duration * sample_rate) = round(2 * 4) = 8`; and `AlignedSources`
truncates rather than rounds: with `seq_duration = 0.5` at 3 Hz it returns
`int(1.5) = 1` sample where `round(1.5) = 2`. -/
theorem C2_counterexample :
    (dsUnShort.getitem zeroPick 0).map (fun p => (shape1 p.1, shape1 p.2)) = some (4, 4) ∧
    ((4 : ℕ) ≠ 8) ∧
    (dsAlHalf.getitem zeroDraw 1 0 0).map (fun p => (shape1 p.1, shape1 p.2)) = some (1, 1) ∧
    ((1 : ℕ) ≠ 2) := by
  refine ⟨?_, by decide, ?_, by decide⟩
  · norm_num +decide [UnalignedSources.getitem, UnalignedSources.getitemAux,
      UnalignedSources.load_audio, random_product, mapOpt, pyChoice, dsUnShort, fileMono4,
      audioloader, readFrames, pyInt, torchStack, rowLens, waveSum, shape1, zeroPick,
      List.range_succ]
  · norm_num +decide [AlignedSources.getitem, AlignedSources.attempt, dsAlHalf,
      fileMono3Hz, audioloader, readFrames, pyInt, fileDuration, uniform, zeroDraw,
      shape1, retryIndex, List.range_succ]

/-- Counterexample to claim C3 as stated: in `MixedSources` a missing stem
file is retried at the SAME index (line 417), not at `index + 1`.  At index
0 the target stem is missing, so the call recurses forever (here: for every
fuel up to 5, with `none` modelling the eventual `RecursionError`), while
index 1 — where the stated policy would have retried — succeeds. -/
theorem C3_counterexample :
    dsMixMissing.getitem zeroDraw zeroPick 5 0 0 0 = none ∧
    dsMixMissing.getitem zeroDraw zeroPick 5 0 0 1 = some ([[0]], [[0]]) := by
  constructor
  · simp +decide [MixedSources.getitem, MixedSources.getitemAux, mixedLoop, dsMixMissing,
      lookupStem, pyChoice, fileMono1Hz4, fileDuration, uniform, audioloader, readFrames,
      pyInt, zeroDraw, zeroPick, retryIndex]
  · norm_num +decide [MixedSources.getitem, MixedSources.getitemAux, mixedLoop,
      dsMixMissing, lookupStem, pyChoice, fileMono1Hz4, fileDuration, uniform, audioloader,
      readFrames, pyInt, zeroDraw, zeroPick, retryIndex, torchStack, rowLens, waveSum,
      List.range_succ]

/-- Counterexample to claim C4 as stated: in `MixedSources` each stem draws
its own excerpt start (line 419 sits inside the per-source loop).  Both
stems of this example come from the same file, so a shared start would force
`mix = target + target`; with draws 0 and 1/2 the two stems are read at
starts 0 s and 3 s, and `mix ≠ target + target`. -/
theorem C4_counterexample :
    dsMixPair.getitem stepDraw zeroPick 1 0 0 0 = some ([[3, 5]], [[3, 4]]) ∧
    ([[3, 5]] : Waveform) ≠ waveAdd [[3, 4]] [[3, 4]] := by
  constructor
  · norm_num +decide [MixedSources.getitem, MixedSources.getitemAux, mixedLoop, dsMixPair,
      lookupStem, pyChoice, fileMono1Hz8, fileDuration, uniform, audioloader, readFrames,
      pyInt, stepDraw, zeroPick, retryIndex, torchStack, rowLens, waveSum, waveAdd,
      Int.toNat_ofNat, List.range_succ]
    simp [List.range_succ]
    norm_num
  · norm_num [waveAdd]

/-- Counterexample to claim C5 as stated: `MixedSources` draws a random
excerpt start even in the evaluation split (line 419 is not guarded by
`random_excerpt`), so two RNG states give different outputs at the same
index. -/
theorem C5_counterexample :
    dsMixPair.getitem zeroDraw zeroPick 1 0 0 0 = some ([[0, 2]], [[0, 1]]) ∧
    dsMixPair.getitem halfDraw zeroPick 1 0 0 0 = some ([[6, 8]], [[3, 4]]) ∧
    (some ([[0, 2]], [[0, 1]]) : Option (Waveform × Waveform)) ≠ some ([[6, 8]], [[3, 4]]) := by
  refine ⟨?_, ?_, by norm_num⟩
  · norm_num +decide [MixedSources.getitem, MixedSources.getitemAux, mixedLoop, dsMixPair,
      lookupStem, pyChoice, fileMono1Hz8, fileDuration, uniform, audioloader, readFrames,
      pyInt, zeroDraw, zeroPick, retryIndex, torchStack, rowLens, waveSum, Int.toNat_ofNat,
      List.range_succ]
    simp [List.range_succ, waveAdd]
    norm_num
  · norm_num +decide [MixedSources.getitem, MixedSources.getitemAux, mixedLoop, dsMixPair,
      lookupStem, pyChoice, fileMono1Hz8, fileDuration, uniform, audioloader, readFrames,
      pyInt, halfDraw, zeroPick, retryIndex, torchStack, rowLens, waveSum, Int.toNat_ofNat,
      List.range_succ]
    simp [List.range_succ, waveAdd]
    norm_num

theorem aligned_ok_shape {fin : AudioFile} {d s : ℚ} {X : Waveform}
    (hX : audioloader fin s (some d) = some X)
    (hcX : ¬((shape1 X : ℤ) < pyInt (d * (fin.samplerate : ℚ)))) :
    rowLens X = List.replicate fin.channels ((pyInt (d * (fin.samplerate : ℚ))).toNat) := by
  obtain ⟨-, hXw⟩ := audioloader_some_dur hX
  by_cases hch : fin.channels = 0
  · rw [hXw, rowLens_readFrames, hch]
    simp
  · have hpos : 0 < fin.channels := Nat.pos_of_ne_zero hch
    have h1 : shape1 X =
        min ((pyInt (d * (fin.samplerate : ℚ))).toNat)
            (fin.samples - (pyInt (s * (fin.samplerate : ℚ))).toNat) := by
      rw [hXw]; exact shape1_readFrames _ _ _ hpos
    have h2 : min ((pyInt (d * (fin.samplerate : ℚ))).toNat)
        (fin.samples - (pyInt (s * (fin.samplerate : ℚ))).toNat)
        = (pyInt (d * (fin.samplerate : ℚ))).toNat := by
      refine min_eq_of_not_lt (Int.toNat_eq_max _) ?_
      rw [h1] at hcX
      exact hcX
    rw [hXw, rowLens_readFrames, h2]

theorem MixedSources.getitemAux_some (ds : MixedSources) (u : ℕ → ℚ) (c : ℕ → ℕ) :
    ∀ (fuel ku kc i : ℕ) (stems : List Waveform) (x y : Waveform),
      ds.getitemAux u c fuel ku kc i = some (stems, x, y) →
      x = waveSum stems ∧ stems.getLast? = some y ∧
      (∃ w rest, stems = w :: rest ∧ ∀ v ∈ stems, rowLens v = rowLens w) ∧
      ∃ i' ku' kc' ku2 kc2,
        mixedLoop ds u c i' (ds.interferers ++ [ds.targetFile]) [] ku' kc' = .ok stems ku2 kc2 := by
  intro fuel
  induction fuel with
  | zero =>
      intro ku kc i stems x y h
      simp [MixedSources.getitemAux] at h
  | succ n ih =>
      intro ku kc i stems x y h
      rw [MixedSources.getitemAux] at h
      split at h
      · exact absurd h (by simp)
      · rename_i i2 ku2 kc2 hloop
        exact ih ku2 kc2 i2 stems x y h
      · rename_i acc ku2 kc2 hloop
        split at h
        · exact absurd h (by simp)
        · rename_i stems2 hstack
          split at h
          · exact absurd h (by simp)
          · rename_i y2 hlast
            simp only [Option.some.injEq, Prod.mk.injEq] at h
            obtain ⟨rfl, rfl, rfl⟩ := h
            obtain ⟨heq, w, rest, hcons, hall⟩ := torchStack_some hstack
            subst heq
            exact ⟨rfl, hlast, ⟨w, rest, hcons, hall⟩, i, ku, kc, ku2, kc2, hloop⟩

/-- Claim C1 (amended): for `UnalignedSources`, `MixedSources` and
`MUSDBDataset` (the latter over a corpus whose per-track target stems match
the premixed track audio in channel and sample count), every returned
`(input, target)` pair satisfies `input.shape == target.shape`; for
`AlignedSources` this holds provided input and output files agree in channel
count and sample rate — the facade itself checks sample counts but never
channel counts or sample rates (see the counterexample). -/
theorem C1_input_target_shape :
    (∀ (ds : UnalignedSources) (c : ℕ → ℕ) (i : ℕ) (x y : Waveform),
       ds.getitem c i = some (x, y) → wshape x = wshape y) ∧
    (∀ (ds : AlignedSources) (u : ℕ → ℚ) (fuel k i : ℕ) (x y : Waveform),
       (∀ p ∈ ds.tuplePaths, p.1.channels = p.2.channels ∧ p.1.samplerate = p.2.samplerate) →
       ds.getitem u fuel k i = some (x, y) → wshape x = wshape y) ∧
    (∀ (ds : MixedSources) (u : ℕ → ℚ) (c : ℕ → ℕ) (fuel ku kc i : ℕ) (x y : Waveform),
       ds.getitem u c fuel ku kc i = some (x, y) → wshape x = wshape y) ∧
    (∀ (ds : MUSDBDataset) (aug : ℕ → Waveform → Waveform) (u : ℕ → ℚ) (c : ℕ → ℕ)
       (i : ℕ) (x y : Waveform),
       (∀ t ∈ ds.mus.tracks, ∀ p ∈ t.targets,
          p.2.channels = t.audio.channels ∧ p.2.samples = t.audio.samples) →
       ds.getitem aug u c i = some (x, y) → wshape x = wshape y) := by
  refine ⟨?_, ?_, ?_, ?_⟩
  · -- UnalignedSources
    intro ds c i x y h
    simp only [UnalignedSources.getitem, Option.map_eq_some'] at h
    obtain ⟨⟨ss, mix, tgt⟩, haux, hpair⟩ := h
    simp only [Prod.mk.injEq] at hpair
    obtain ⟨rfl, rfl⟩ := hpair
    simp only [UnalignedSources.getitemAux, Option.bind_eq_bind, Option.bind_eq_some,
      Option.pure_def, Option.some.injEq] at haux
    obtain ⟨tuple, htuple, ss2, hss, stems, hstack, lastF, hlast, tgt2, htgt, heq⟩ := haux
    simp only [Prod.mk.injEq] at heq
    obtain ⟨rfl, hmix, rfl⟩ := heq
    obtain ⟨heqs, w, rest, hcons, hall⟩ := torchStack_some hstack
    subst heqs
    obtain ⟨b, hb, hblast⟩ := mapOpt_getLast hss hlast
    rw [htgt] at hb
    obtain rfl := (Option.some.injEq _ _ ▸ hb)
    have htgtmem : tgt2 ∈ stems := getLast?_mem' hblast
    have h1 : rowLens mix = rowLens w := by
      rw [← hmix, hcons]
      exact rowLens_waveSum
        (fun v hv => hall v (by rw [hcons]; exact List.mem_cons_of_mem w hv))
    have h2 : rowLens tgt2 = rowLens w := hall tgt2 htgtmem
    exact wshape_eq_of_rowLens_eq (h1.trans h2.symm)
  · -- AlignedSources
    intro ds u fuel
    induction fuel with
    | zero =>
        intro k i x y hH h
        simp [AlignedSources.getitem] at h
    | succ n ih =>
        intro k i x y hH h
        rw [AlignedSources.getitem] at h
        split at h
        · rename_i X Y hatt
          simp only [Option.some.injEq, Prod.mk.injEq] at h
          obtain ⟨rfl, rfl⟩ := h
          obtain ⟨fin, fout, d, s, hp, hsd, hX, hY, hcX, hcY, -, -⟩ :=
            AlignedSources.attempt_ok hatt
          obtain ⟨hch, hsr⟩ := hH _ (List.get?_mem hp)
          have h1 := aligned_ok_shape hX hcX
          have h2 := aligned_ok_shape hY hcY
          refine wshape_eq_of_rowLens_eq ?_
          rw [h1, h2, hch, hsr]
        · rename_i i2 used hatt
          exact ih (k + used) i2 x y hH h
        · exact absurd h (by simp)
  · -- MixedSources
    intro ds u c fuel ku kc i x y h
    simp only [MixedSources.getitem, Option.map_eq_some'] at h
    obtain ⟨⟨stems, x0, y0⟩, haux, hpair⟩ := h
    simp only [Prod.mk.injEq] at hpair
    obtain ⟨rfl, rfl⟩ := hpair
    obtain ⟨hsum, hlast, ⟨w, rest, hcons, hall⟩, -⟩ :=
      MixedSources.getitemAux_some ds u c fuel ku kc i stems x0 y0 haux
    have h1 : rowLens x0 = rowLens w := by
      rw [hsum, hcons]
      exact rowLens_waveSum
        (fun v hv => hall v (by rw [hcons]; exact List.mem_cons_of_mem w hv))
    have h2 : rowLens y0 = rowLens w := hall y0 (getLast?_mem' hlast)
    exact wshape_eq_of_rowLens_eq (h1.trans h2.symm)
  · -- MUSDBDataset
    intro ds aug u c i x y hWF h
    simp only [MUSDBDataset.getitem, Option.map_eq_some'] at h
    obtain ⟨⟨stems, x0, y0⟩, haux, hpair⟩ := h
    simp only [Prod.mk.injEq] at hpair
    obtain ⟨rfl, rfl⟩ := hpair
    rw [MUSDBDataset.getitemAux] at haux
    split at haux
    · exact absurd haux (by simp)
    · rename_i track hp
      split at haux
      · -- train split
        split at haux
        · exact absurd haux (by simp)
        · rename_i acc ti ku2 kc2 hloop
          split at haux
          · exact absurd haux (by simp)
          · rename_i stems2 hstack
            obtain ⟨heqs, w, rest, hcons, hall⟩ := torchStack_some hstack
            subst heqs
            have hsumw : rowLens (waveSum stems2) = rowLens w := by
              rw [hcons]
              exact rowLens_waveSum
                (fun v hv => hall v (by rw [hcons]; exact List.mem_cons_of_mem w hv))
            split at haux
            · -- target among the native sources
              rename_i t
              split at haux
              · exact absurd haux (by simp)
              · rename_i yv hget
                simp only [Option.some.injEq, Prod.mk.injEq] at haux
                obtain ⟨rfl, hx1, rfl⟩ := haux
                have hyv : rowLens yv = rowLens w := hall yv (List.get?_mem hget)
                rw [hx1] at hsumw
                exact wshape_eq_of_rowLens_eq (hsumw.trans hyv.symm)
            · -- accompaniment fallback
              split at haux
              · exact absurd haux (by simp)
              · rename_i vi hfi
                split at haux
                · exact absurd haux (by simp)
                · rename_i yv hget
                  simp only [Option.some.injEq, Prod.mk.injEq] at haux
                  obtain ⟨rfl, hx1, hy1⟩ := haux
                  have hyv : rowLens yv = rowLens w := hall yv (List.get?_mem hget)
                  rw [hx1] at hsumw
                  have hy : rowLens y0 = rowLens x0 := by
                    rw [← hy1, hx1]
                    exact rowLens_waveSub (hsumw.trans hyv.symm)
                  exact wshape_eq_of_rowLens_eq hy.symm
      · -- validation split
        split at haux
        · exact absurd haux (by simp)
        · rename_i tf hlk
          simp only [Option.some.injEq, Prod.mk.injEq] at haux
          obtain ⟨-, rfl, rfl⟩ := haux
          obtain ⟨p, hpmem, rfl⟩ := lookupStem_mem hlk
          obtain ⟨hchn, hsmp⟩ := hWF track (List.get?_mem hp) p hpmem
          refine wshape_eq_of_rowLens_eq ?_
          rw [rowLens_readFrames, rowLens_readFrames, hchn, hsmp]

/-- Witness for C1: one concrete application per facade (Unaligned, Aligned
with matching channel counts and sample rates, Mixed, MUSDB train). -/
theorem C1_input_target_shape_witness :
    wshape [[(0 : ℚ), 1, 2, 3]] = wshape [[(0 : ℚ), 1, 2, 3]] ∧
    wshape [[(0 : ℚ)]] = wshape [[(0 : ℚ)]] ∧
    wshape [[(3 : ℚ), 5]] = wshape [[(3 : ℚ), 4]] ∧
    wshape [[(6 : ℚ)]] = wshape [[(5 : ℚ)]] := by
  refine ⟨?_, ?_, ?_, ?_⟩
  · refine C1_input_target_shape.1 dsUnShort zeroPick 0 _ _ ?_
    norm_num +decide [UnalignedSources.getitem, UnalignedSources.getitemAux,
      UnalignedSources.load_audio, random_product, mapOpt, pyChoice, dsUnShort, fileMono4,
      audioloader, readFrames, pyInt, torchStack, rowLens, waveSum, waveAdd, zeroPick,
      Int.toNat_ofNat, List.range_succ]
  · refine C1_input_target_shape.2.1 dsAlHalf zeroDraw 1 0 0 _ _ (by decide) ?_
    norm_num +decide [AlignedSources.getitem, AlignedSources.attempt, dsAlHalf,
      fileMono3Hz, audioloader, readFrames, pyInt, fileDuration, uniform, zeroDraw,
      shape1, retryIndex, Int.toNat_ofNat, List.range_succ]
  · refine C1_input_target_shape.2.2.1 dsMixPair stepDraw zeroPick 1 0 0 0 _ _ ?_
    norm_num +decide [MixedSources.getitem, MixedSources.getitemAux, mixedLoop, dsMixPair,
      lookupStem, pyChoice, fileMono1Hz8, fileDuration, uniform, audioloader, readFrames,
      pyInt, stepDraw, zeroPick, retryIndex, torchStack, rowLens, waveSum, waveAdd,
      Int.toNat_ofNat, List.range_succ]
    simp [List.range_succ]
    norm_num
  · refine C1_input_target_shape.2.2.2 dsMusAcc augId zeroDraw zeroPick 0 _ _ (by decide) ?_
    norm_num +decide [MUSDBDataset.getitem, MUSDBDataset.getitemAux, musdbLoop, dsMusAcc,
      musCorpus, trackMus, lookupStem, chunkRead, readFrames, pyInt, uniform, augId,
      zeroDraw, zeroPick, fileVoc, fileDrum, torchStack, rowLens, waveSum, waveSub, waveAdd,
      Int.toNat_ofNat, List.findIdx?_cons, List.findIdx?_nil, List.range_succ]

/-- Claim C7: for `UnalignedSources` and `MixedSources`, the returned input
waveform equals the sample-wise sum of all loaded stems, and the target's
stem is among them (it is the last loaded stem). -/
theorem C7_mix_is_sum :
    (∀ (ds : UnalignedSources) (c : ℕ → ℕ) (i : ℕ) (stems : List Waveform) (x y : Waveform),
       ds.getitemAux c i = some (stems, x, y) →
       x = waveSum stems ∧ stems.getLast? = some y) ∧
    (∀ (ds : MixedSources) (u : ℕ → ℚ) (c : ℕ → ℕ) (fuel ku kc i : ℕ)
       (stems : List Waveform) (x y : Waveform),
       ds.getitemAux u c fuel ku kc i = some (stems, x, y) →
       x = waveSum stems ∧ stems.getLast? = some y) := by
  constructor
  · intro ds c i stems x y h
    simp only [UnalignedSources.getitemAux, Option.bind_eq_bind, Option.bind_eq_some,
      Option.pure_def, Option.some.injEq] at h
    obtain ⟨tuple, htuple, ss2, hss, stems2, hstack, lastF, hlast, tgt2, htgt, heq⟩ := h
    simp only [Prod.mk.injEq] at heq
    obtain ⟨rfl, hmix, rfl⟩ := heq
    obtain ⟨heqs, w, rest, hcons, hall⟩ := torchStack_some hstack
    subst heqs
    obtain ⟨b, hb, hblast⟩ := mapOpt_getLast hss hlast
    rw [htgt] at hb
    obtain rfl := (Option.some.injEq _ _ ▸ hb)
    exact ⟨hmix.symm, hblast⟩
  · intro ds u c fuel ku kc i stems x y h
    obtain ⟨hsum, hlast, -, -⟩ := MixedSources.getitemAux_some ds u c fuel ku kc i stems x y h
    exact ⟨hsum, hlast⟩

/-- Witness for C7 at concrete datasets: the Unaligned pair fixture and the
Mixed two-stem fixture. -/
theorem C7_mix_is_sum_witness :
    (([[30]] : Waveform) = waveSum [[[10]], [[20]]] ∧
      List.getLast? ([[[10]], [[20]]] : List Waveform) = some [[20]]) ∧
    (([[3, 5]] : Waveform) = waveSum [[[0, 1]], [[3, 4]]] ∧
      List.getLast? ([[[0, 1]], [[3, 4]]] : List Waveform) = some [[3, 4]]) := by
  constructor
  · refine C7_mix_is_sum.1 dsUnPair zeroPick 0 _ _ _ ?_
    norm_num +decide [UnalignedSources.getitemAux, UnalignedSources.load_audio,
      random_product, mapOpt, pyChoice, dsUnPair, fileTen, fileTwenty, audioloader,
      readFrames, pyInt, torchStack, rowLens, waveSum, waveAdd, zeroPick, Int.toNat_ofNat,
      List.range_succ]
  · refine C7_mix_is_sum.2 dsMixPair stepDraw zeroPick 1 0 0 0 _ _ _ ?_
    norm_num +decide [MixedSources.getitemAux, mixedLoop, dsMixPair, lookupStem, pyChoice,
      fileMono1Hz8, fileDuration, uniform, audioloader, readFrames, pyInt, stepDraw,
      zeroPick, retryIndex, torchStack, rowLens, waveSum, waveAdd, Int.toNat_ofNat,
      List.range_succ]
    simp [List.range_succ]
    norm_num

theorem musdbLoop_ti_none {ds : MUSDBDataset} {aug : ℕ → Waveform → Waveform}
    {u : ℕ → ℚ} {c : ℕ → ℕ} {track0 : MusTrack} :
    ∀ (srcs : List String) (kidx : ℕ) (acc : List Waveform) (ku kc : ℕ)
      (stems : List Waveform) (ti' : Option ℕ) (ku' kc' : ℕ),
      musdbLoop ds aug u c track0 srcs kidx acc none ku kc = .ok stems ti' ku' kc' →
      (∀ s ∈ srcs, s ≠ ds.target) → ti' = none := by
  intro srcs
  induction srcs with
  | nil =>
      intro kidx acc ku kc stems ti' ku' kc' h hs
      simp only [musdbLoop, MusStep.ok.injEq] at h
      exact h.2.1.symm
  | cons src rest ih =>
      intro kidx acc ku kc stems ti' ku' kc' h hs
      have hne : src ≠ ds.target := hs src (by simp)
      rw [musdbLoop] at h
      simp only [if_neg hne] at h
      split at h
      · exact absurd h (by simp)
      · rename_i track hpick
        split at h
        · exact absurd h (by simp)
        · rename_i d hsd
          split at h
          · exact absurd h (by simp)
          · rename_i f hlk
            exact ih (kidx + 1) _ (ku + 1) _ stems ti' ku' kc' h
              (fun s hsmem => hs s (by simp [hsmem]))

/-- Claim C8: in the MUSDB train split, when the requested target name is
not among the corpus's native source names, the returned target equals the
input mixture minus the loaded vocals stem, sample-wise exactly. -/
theorem C8_accompaniment_fallback :
    ∀ (ds : MUSDBDataset) (aug : ℕ → Waveform → Waveform) (u : ℕ → ℚ) (c : ℕ → ℕ)
      (i vi : ℕ) (stems : List Waveform) (x y : Waveform),
      ds.isTrainSplit = true →
      ds.target ∉ ds.mus.setupSources →
      ds.mus.setupSources.findIdx? (fun s => s = "vocals") = some vi →
      ds.getitemAux aug u c i = some (stems, x, y) →
      ∃ yv, stems.get? vi = some yv ∧ y = waveSub x yv := by
  intro ds aug u c i vi stems x y hsplit htgt hfi haux
  rw [MUSDBDataset.getitemAux] at haux
  split at haux
  · exact absurd haux (by simp)
  · rename_i track hp
    rw [hsplit] at haux
    simp only [if_true] at haux
    split at haux
    · exact absurd haux (by simp)
    · rename_i acc ti ku2 kc2 hloop
      have hti : ti = none := musdbLoop_ti_none ds.mus.setupSources 0 [] 0 0 acc ti ku2 kc2
        hloop (fun s hsmem heq => htgt (heq ▸ hsmem))
      subst hti
      split at haux
      · exact absurd haux (by simp)
      · rename_i stems2 hstack
        split at haux
        · rename_i t heqt
          exact absurd heqt (by simp)
        · split at haux
          · exact absurd haux (by simp)
          · rename_i vi2 hfi2
            rw [hfi] at hfi2
            obtain rfl := (Option.some.injEq _ _ ▸ hfi2)
            split at haux
            · exact absurd haux (by simp)
            · rename_i yv hget
              simp only [Option.some.injEq, Prod.mk.injEq] at haux
              obtain ⟨rfl, rfl, rfl⟩ := haux
              exact ⟨yv, hget, rfl⟩

/-- Witness for C8 at the concrete corpus fixture: target `acc` is not a
native source name, and the returned target equals mix minus vocals. -/
theorem C8_accompaniment_fallback_witness :
    ([[5]] : Waveform) = waveSub [[6]] [[1]] := by
  obtain ⟨yv, hget, hy⟩ := C8_accompaniment_fallback dsMusAcc augId zeroDraw zeroPick 0 0
    [[[1]], [[5]]] [[6]] [[5]] rfl (by decide) (by decide) (by
      norm_num +decide [MUSDBDataset.getitemAux, musdbLoop, dsMusAcc, musCorpus, trackMus,
        lookupStem, chunkRead, readFrames, pyInt, uniform, augId, zeroDraw, zeroPick,
        fileVoc, fileDrum, torchStack, rowLens, waveSum, waveSub, waveAdd, Int.toNat_ofNat,
        List.findIdx?_cons, List.findIdx?_nil, List.range_succ])
  simp only [List.get?_cons_zero, Option.some.injEq] at hget
  rw [← hget] at hy
  exact hy

/-- Claim C4 (amended): `AlignedSources` draws one excerpt start per example
and reuses it for both the input and the output load (the single `s` below
feeds both loaders); `MixedSources` draws an independent start per stem
(see the counterexample). -/
theorem C4_shared_start :
    ∀ (ds : AlignedSources) (u : ℕ → ℚ) (fuel k i : ℕ) (fin fout : AudioFile) (d s : ℚ)
      (X Y : Waveform),
      ds.tuplePaths.get? i = some (fin, fout) →
      ds.randomExcerpt = true →
      ds.seqDuration = some d →
      ¬(min (fileDuration fin) (fileDuration fout) < d) →
      s = uniform 0 (min (fileDuration fin) (fileDuration fout) - d) (u k) →
      audioloader fin s (some d) = some X →
      audioloader fout s (some d) = some Y →
      ¬((shape1 X : ℤ) < pyInt (d * (fin.samplerate : ℚ))) →
      ¬((shape1 Y : ℤ) < pyInt (d * (fout.samplerate : ℚ))) →
      ds.getitem u (fuel + 1) k i = some (X, Y) := by
  intro ds u fuel k i fin fout d s X Y hp hre hsd hdur hs hX hY hcX hcY
  have hatt : ds.attempt (u k) i = .ok X Y := by
    rw [AlignedSources.attempt, hp]
    simp only [hre, hsd, if_true, if_neg hdur, ← hs, hX, hY]
    rw [if_neg (by rw [not_or]; exact ⟨hcX, hcY⟩)]
  rw [AlignedSources.getitem, hatt]

/-- Witness for C4 at the concrete train-split fixture: with draw 0 the
shared start is 0 and both loads return the same excerpt. -/
theorem C4_shared_start_witness :
    dsAlTrain.getitem zeroDraw 1 0 0 = some ([[0, 1], [1, 2]], [[0, 1], [1, 2]]) := by
  refine C4_shared_start dsAlTrain zeroDraw 0 0 0 fileStereo fileStereo 1 0
    [[0, 1], [1, 2]] [[0, 1], [1, 2]] rfl rfl rfl ?_ ?_ ?_ ?_ ?_ ?_
  · norm_num [fileDuration, fileStereo]
  · norm_num [uniform, zeroDraw, fileDuration, fileStereo]
  · norm_num +decide [audioloader, readFrames, pyInt, fileStereo, Int.toNat_ofNat,
      List.range_succ]
    simp [List.range_succ]
    norm_num
  · norm_num +decide [audioloader, readFrames, pyInt, fileStereo, Int.toNat_ofNat,
      List.range_succ]
    simp [List.range_succ]
    norm_num
  · norm_num [shape1, pyInt, fileStereo]
  · norm_num [shape1, pyInt, fileStereo]

/-- Claim C5 (amended): in an evaluation-like split the output of
`AlignedSources.__getitem__` is independent of the RNG state (and a
successful attempt loads both files at excerpt start 0), and
`MUSDBDataset.__getitem__` is likewise RNG-independent; `MixedSources` is
NOT deterministic in evaluation splits (see the counterexample). -/
theorem C5_eval_determinism :
    (∀ (ds : AlignedSources) (u1 u2 : ℕ → ℚ) (fuel k1 k2 i : ℕ),
       ds.randomExcerpt = false →
       ds.getitem u1 fuel k1 i = ds.getitem u2 fuel k2 i) ∧
    (∀ (ds : AlignedSources) (draw : ℚ) (i : ℕ) (fin fout : AudioFile) (X Y : Waveform),
       ds.randomExcerpt = false → ds.tuplePaths.get? i = some (fin, fout) →
       ds.attempt draw i = .ok X Y →
       audioloader fin 0 ds.seqDuration = some X ∧
       audioloader fout 0 ds.seqDuration = some Y) ∧
    (∀ (ds : MUSDBDataset) (aug1 aug2 : ℕ → Waveform → Waveform) (u1 u2 : ℕ → ℚ)
       (c1 c2 : ℕ → ℕ) (i : ℕ),
       ds.isTrainSplit = false →
       ds.getitem aug1 u1 c1 i = ds.getitem aug2 u2 c2 i) := by
  refine ⟨?_, ?_, ?_⟩
  · intro ds u1 u2 fuel
    induction fuel with
    | zero => intro k1 k2 i hre; rfl
    | succ n ih =>
        intro k1 k2 i hre
        have hatt : ds.attempt (u1 k1) i = ds.attempt (u2 k2) i := by
          rw [AlignedSources.attempt, AlignedSources.attempt]
          cases hp : ds.tuplePaths.get? i with
          | none => rfl
          | some pair =>
              obtain ⟨fin, fout⟩ := pair
              simp only [hre, Bool.false_eq_true, if_false]
        rw [AlignedSources.getitem, AlignedSources.getitem, hatt]
        cases hres : ds.attempt (u2 k2) i with
        | ok X Y => rfl
        | fatal => rfl
        | retry i2 used => exact ih (k1 + used) (k2 + used) i2 hre
  · intro ds draw i fin fout X Y hre hp hatt
    obtain ⟨fin2, fout2, d, s, hp2, hsd, hX, hY, -, -, -, hs0⟩ :=
      AlignedSources.attempt_ok hatt
    rw [hp] at hp2
    obtain hpe := (Option.some.injEq _ _ ▸ hp2)
    obtain ⟨rfl, rfl⟩ := Prod.mk.injEq _ _ _ _ ▸ hpe
    rw [hsd]
    rw [hs0 hre] at hX hY
    exact ⟨hX, hY⟩
  · intro ds aug1 aug2 u1 u2 c1 c2 i hsplit
    rw [MUSDBDataset.getitem, MUSDBDataset.getitem, MUSDBDataset.getitemAux,
      MUSDBDataset.getitemAux]
    cases hp : ds.mus.tracks.get? (i / ds.samplesPerTrack) with
    | none => rfl
    | some track =>
        simp only [hsplit, Bool.false_eq_true, if_false]

/-- Witness for C5: the Aligned eval fixture gives the same output under two
RNG states, a successful eval attempt loads at start 0, and the MUSDB
validation fixture is RNG-independent. -/
theorem C5_eval_determinism_witness :
    dsAlHalf.getitem zeroDraw 1 0 0 = dsAlHalf.getitem halfDraw 1 5 0 ∧
    (audioloader fileMono3Hz 0 dsAlHalf.seqDuration = some [[0]] ∧
     audioloader fileMono3Hz 0 dsAlHalf.seqDuration = some [[0]]) ∧
    dsMusEval.getitem augId zeroDraw zeroPick 0
      = dsMusEval.getitem (fun _ w => w.reverse) halfDraw (fun _ => 3) 0 := by
  refine ⟨C5_eval_determinism.1 dsAlHalf zeroDraw halfDraw 1 0 5 0 rfl, ?_, ?_⟩
  · refine C5_eval_determinism.2.1 dsAlHalf (1 / 2) 0 fileMono3Hz fileMono3Hz
      [[0]] [[0]] rfl rfl ?_
    norm_num +decide [AlignedSources.attempt, dsAlHalf, fileMono3Hz, audioloader,
      readFrames, pyInt, fileDuration, uniform, shape1, retryIndex, Int.toNat_ofNat,
      List.range_succ]
  · exact C5_eval_determinism.2.2 dsMusEval augId (fun _ w => w.reverse) zeroDraw halfDraw
      zeroPick (fun _ => 3) 0 rfl

/-- Claim C3 (amended): the retry target is `index - 1` for `index > 0`,
else `index + 1`; `AlignedSources` retries there on a too-short source and
on a decode error; `MixedSources` retries there on a too-short source — but
a missing stem file is retried at the SAME index (line 417 of the source),
so the stated policy does not cover it, and with deterministic track
selection such a failure recurses forever (see the counterexample).
`UnalignedSources` catches nothing. -/
theorem C3_retry_policy :
    (retryIndex 0 = 1 ∧ ∀ i : ℕ, retryIndex (i + 1) = i) ∧
    (∀ (ds : AlignedSources) (u : ℕ → ℚ) (fuel k i : ℕ) (fin fout : AudioFile) (d : ℚ),
       ds.tuplePaths.get? i = some (fin, fout) → ds.randomExcerpt = true →
       ds.seqDuration = some d → min (fileDuration fin) (fileDuration fout) < d →
       ds.getitem u (fuel + 1) k i = ds.getitem u fuel k (retryIndex i)) ∧
    (∀ (ds : AlignedSources) (u : ℕ → ℚ) (fuel k i : ℕ) (fin fout : AudioFile),
       ds.tuplePaths.get? i = some (fin, fout) → ds.randomExcerpt = false →
       fin.readOk = false →
       ds.getitem u (fuel + 1) k i = ds.getitem u fuel k (retryIndex i)) ∧
    (∀ (ds : MixedSources) (u : ℕ → ℚ) (c : ℕ → ℕ) (fuel ku kc i : ℕ) (t : MixedTrack)
       (f : AudioFile) (d : ℚ) (src : String) (rest : List String),
       ds.augmentations = false → ds.interferers ++ [ds.targetFile] = src :: rest →
       ds.tracks.get? i = some t → lookupStem t src = some f →
       ds.seqDuration = some d → fileDuration f < d →
       ds.getitemAux u c (fuel + 1) ku kc i = ds.getitemAux u c fuel ku kc (retryIndex i)) ∧
    (∀ (ds : MixedSources) (u : ℕ → ℚ) (c : ℕ → ℕ) (fuel ku kc i : ℕ) (t : MixedTrack)
       (src : String) (rest : List String),
       ds.augmentations = false → ds.interferers ++ [ds.targetFile] = src :: rest →
       ds.tracks.get? i = some t → lookupStem t src = none →
       ds.getitemAux u c (fuel + 1) ku kc i = ds.getitemAux u c fuel ku kc i) := by
  refine ⟨⟨rfl, fun i => by simp [retryIndex]⟩, ?_, ?_, ?_, ?_⟩
  · intro ds u fuel k i fin fout d hp hre hsd hdur
    have hatt : ds.attempt (u k) i = .retry (retryIndex i) 0 := by
      rw [AlignedSources.attempt, hp]
      simp only [hre, hsd, if_true, if_pos hdur]
    rw [AlignedSources.getitem, hatt]
    rfl
  · intro ds u fuel k i fin fout hp hre hread
    have hload : audioloader fin 0 ds.seqDuration = none := by
      simp [audioloader, hread]
    have hatt : ds.attempt (u k) i = .retry (retryIndex i) 0 := by
      rw [AlignedSources.attempt, hp]
      simp only [hre, Bool.false_eq_true, if_false, hload]
    rw [AlignedSources.getitem, hatt]
    rfl
  · intro ds u c fuel ku kc i t f d src rest haug hsrc ht hlk hsd hdur
    have hloop : mixedLoop ds u c i (src :: rest) [] ku kc
        = .retry (retryIndex i) ku kc := by
      rw [mixedLoop]
      simp only [haug, Bool.false_eq_true, if_false, ht, hlk, hsd, if_pos hdur]
    rw [MixedSources.getitemAux, hsrc, hloop]
  · intro ds u c fuel ku kc i t src rest haug hsrc ht hlk
    have hloop : mixedLoop ds u c i (src :: rest) [] ku kc = .retry i ku kc := by
      rw [mixedLoop]
      simp only [haug, Bool.false_eq_true, if_false, ht, hlk]
    rw [MixedSources.getitemAux, hsrc, hloop]

/-- Witness for C3 at concrete fixtures: a too-short aligned pair at index 1
retries at index 0, a corrupt aligned input at index 0 retries at index 1, a
too-short mixed stem at index 0 retries at index 1, and a missing mixed stem
at index 0 retries at index 0 again. -/
theorem C3_retry_policy_witness :
    dsAlShort.getitem zeroDraw 2 0 1 = dsAlShort.getitem zeroDraw 1 0 0 ∧
    dsAlBad.getitem zeroDraw 2 0 0 = dsAlBad.getitem zeroDraw 1 0 1 ∧
    dsMixShort.getitemAux zeroDraw zeroPick 2 0 0 0
      = dsMixShort.getitemAux zeroDraw zeroPick 1 0 0 1 ∧
    dsMixMissing.getitemAux zeroDraw zeroPick 2 0 0 0
      = dsMixMissing.getitemAux zeroDraw zeroPick 1 0 0 0 := by
  refine ⟨?_, ?_, ?_, ?_⟩
  · exact C3_retry_policy.2.1 dsAlShort zeroDraw 1 0 1 fileMono4 fileMono4 10 rfl rfl rfl
      (by norm_num [fileDuration, fileMono4])
  · exact C3_retry_policy.2.2.1 dsAlBad zeroDraw 1 0 0 fileBad fileMono4 rfl rfl rfl
  · exact C3_retry_policy.2.2.2.1 dsMixShort zeroDraw zeroPick 1 0 0 0
      [("a", fileMono4)] fileMono4 10 "a" [] rfl rfl rfl rfl rfl
      (by norm_num [fileDuration, fileMono4])
  · exact C3_retry_policy.2.2.2.2 dsMixMissing zeroDraw zeroPick 1 0 0 0
      [("b", fileMono1Hz4)] "a" [] rfl rfl rfl rfl

theorem mixedLoop_ok_stems {ds : MixedSources} {u : ℕ → ℚ} {c : ℕ → ℕ} {index : ℕ}
    {r : ℕ} {d : ℚ}
    (hsd : ds.seqDuration = some d) (hr : 0 < r)
    (htr : ∀ t ∈ ds.tracks, ∀ p ∈ t, (p : String × AudioFile).2.samplerate = r ∧
      0 < p.2.channels)
    (hu : ∀ n, 0 ≤ u n ∧ u n ≤ 1) :
    ∀ (srcs : List String) (acc : List Waveform) (ku kc : ℕ) (stems : List Waveform)
      (ku' kc' : ℕ),
      mixedLoop ds u c index srcs acc ku kc = .ok stems ku' kc' →
      (∀ w ∈ acc, ∃ chn, 0 < chn ∧
        rowLens w = List.replicate chn ((pyInt (d * (r : ℚ))).toNat)) →
      ∀ w ∈ stems, ∃ chn, 0 < chn ∧
        rowLens w = List.replicate chn ((pyInt (d * (r : ℚ))).toNat) := by
  intro srcs
  induction srcs with
  | nil =>
      intro acc ku kc stems ku' kc' h hacc
      simp only [mixedLoop, MixedStep.ok.injEq] at h
      obtain ⟨rfl, -, -⟩ := h
      exact hacc
  | cons src rest ih =>
      intro acc ku kc stems ku' kc' h hacc
      rw [mixedLoop] at h
      rcases hpick : (if ds.augmentations = true then (pyChoice ds.tracks (c kc), kc + 1)
          else (ds.tracks.get? index, kc)) with ⟨trackOpt, kc1⟩
      rw [hpick] at h
      split at h
      · exact absurd h (by simp)
      · rename_i track heqt
        split at h
        · exact absurd h (by simp)
        · rename_i f hlk
          split at h
          · exact absurd h (by simp)
          · rename_i d2 hsd2
            rw [hsd] at hsd2
            obtain rfl := (Option.some.injEq _ _ ▸ hsd2)
            dsimp only at h
            split at h
            · exact absurd h (by simp)
            · rename_i hdur
              split at h
              · exact absurd h (by simp)
              · rename_i X hX
                refine ih _ _ _ stems ku' kc' h ?_
                intro w hw
                rcases List.mem_append.mp hw with hw | hw
                · exact hacc w hw
                · simp only [List.mem_singleton] at hw
                  subst hw
                  have htrack : track ∈ ds.tracks := by
                    have heqt2 : trackOpt = some track := by simpa using heqt
                    have hfst := congrArg Prod.fst hpick
                    by_cases ha : ds.augmentations = true
                    · rw [if_pos ha] at hfst
                      simp only at hfst
                      exact pyChoice_mem (hfst.trans heqt2)
                    · rw [if_neg ha] at hfst
                      simp only at hfst
                      exact List.get?_mem (hfst.trans heqt2)
                  obtain ⟨p, hpmem, rfl⟩ := lookupStem_mem hlk
                  obtain ⟨hsr, hch⟩ := htr track htrack p hpmem
                  have hfr : 0 < p.2.samplerate := by rw [hsr]; exact hr
                  have hdle : d ≤ fileDuration p.2 := not_lt.mp hdur
                  set s := uniform 0 (fileDuration p.2 - d) (u ku) with hsdef
                  have hs := uniform_mem (a := 0) (b := fileDuration p.2 - d) (v := u ku)
                    (by linarith) (hu ku).1 (hu ku).2
                  have h0s : 0 ≤ s := hs.1
                  have hsd' : s + d ≤ fileDuration p.2 := by
                    have := hs.2
                    linarith
                  rw [hsd] at hX
                  obtain ⟨-, hXw⟩ := audioloader_some_dur hX
                  have hmin := min_frames_full p.2 d s hfr h0s hsd'
                  refine ⟨p.2.channels, hch, ?_⟩
                  rw [hXw, rowLens_readFrames, hmin, hsr]

/-- Claim C2 (amended): for `AlignedSources` and `MixedSources` with a
positive-duration excerpt request over files of a uniform sample rate `r`,
every returned waveform has exactly `int(seq_duration * r)` samples per
channel — Python truncation, not `round` — an example that would come out
shorter is retried; `UnalignedSources` performs no length validation and can
return short waveforms (see the counterexample). -/
theorem C2_excerpt_length :
    (∀ (ds : AlignedSources) (u : ℕ → ℚ) (fuel k i : ℕ) (r : ℕ) (d : ℚ) (x y : Waveform),
       ds.seqDuration = some d →
       (∀ p ∈ ds.tuplePaths, (p : AudioFile × AudioFile).1.samplerate = r ∧
          p.2.samplerate = r ∧ 0 < p.1.channels ∧ 0 < p.2.channels) →
       ds.getitem u fuel k i = some (x, y) →
       shape1 x = (pyInt (d * (r : ℚ))).toNat ∧ shape1 y = (pyInt (d * (r : ℚ))).toNat) ∧
    (∀ (ds : MixedSources) (u : ℕ → ℚ) (c : ℕ → ℕ) (fuel ku kc i : ℕ) (r : ℕ) (d : ℚ)
       (x y : Waveform),
       ds.seqDuration = some d → 0 < r →
       (∀ t ∈ ds.tracks, ∀ p ∈ t, (p : String × AudioFile).2.samplerate = r ∧
          0 < p.2.channels) →
       (∀ n, 0 ≤ u n ∧ u n ≤ 1) →
       ds.getitem u c fuel ku kc i = some (x, y) →
       shape1 x = (pyInt (d * (r : ℚ))).toNat ∧ shape1 y = (pyInt (d * (r : ℚ))).toNat) := by
  constructor
  · intro ds u fuel
    induction fuel with
    | zero =>
        intro k i r d x y hsd hH h
        simp [AlignedSources.getitem] at h
    | succ n ih =>
        intro k i r d x y hsd hH h
        rw [AlignedSources.getitem] at h
        split at h
        · rename_i X Y hatt
          simp only [Option.some.injEq, Prod.mk.injEq] at h
          obtain ⟨rfl, rfl⟩ := h
          obtain ⟨fin, fout, d2, s, hp, hsd2, hX, hY, hcX, hcY, -, -⟩ :=
            AlignedSources.attempt_ok hatt
          rw [hsd] at hsd2
          obtain rfl := (Option.some.injEq _ _ ▸ hsd2)
          obtain ⟨hsrin, hsrout, hchin, hchout⟩ := hH _ (List.get?_mem hp)
          constructor
          · have h1 := aligned_ok_shape hX hcX
            rw [hsrin] at h1
            exact shape1_of_rowLens_replicate hchin h1
          · have h2 := aligned_ok_shape hY hcY
            rw [hsrout] at h2
            exact shape1_of_rowLens_replicate hchout h2
        · rename_i i2 used hatt
          exact ih (k + used) i2 r d x y hsd hH h
        · exact absurd h (by simp)
  · intro ds u c fuel ku kc i r d x y hsd hr htr hu h
    simp only [MixedSources.getitem, Option.map_eq_some'] at h
    obtain ⟨⟨stems, x0, y0⟩, haux, hpair⟩ := h
    simp only [Prod.mk.injEq] at hpair
    obtain ⟨rfl, rfl⟩ := hpair
    obtain ⟨hsum, hlast, ⟨w, rest, hcons, hall⟩, i2, ku2, kc2, ku3, kc3, hloop⟩ :=
      MixedSources.getitemAux_some ds u c fuel ku kc i stems x0 y0 haux
    have hstems := mixedLoop_ok_stems hsd hr htr hu _ [] ku2 kc2 stems ku3 kc3 hloop
      (by intro w hw; simp at hw)
    constructor
    · obtain ⟨chn, hch, hrep⟩ := hstems w (hcons ▸ List.mem_cons_self w rest)
      have hx : rowLens x0 = rowLens w := by
        rw [hsum, hcons]
        exact rowLens_waveSum
          (fun v hv => hall v (by rw [hcons]; exact List.mem_cons_of_mem w hv))
      rw [shape1_eq_of_rowLens_eq hx]
      exact shape1_of_rowLens_replicate hch hrep
    · obtain ⟨chn, hch, hrep⟩ := hstems y0 (getLast?_mem' hlast)
      exact shape1_of_rowLens_replicate hch hrep

/-- Witness for C2: the aligned fixture at 3 Hz with a half-second request
returns `int(1.5) = 1` sample, and the mixed fixture at 1 Hz with a
2-second request returns `int(2) = 2` samples. -/
theorem C2_excerpt_length_witness :
    (shape1 [[(0 : ℚ)]] = (pyInt ((1 / 2) * ((3 : ℕ) : ℚ))).toNat ∧
     shape1 [[(0 : ℚ)]] = (pyInt ((1 / 2) * ((3 : ℕ) : ℚ))).toNat) ∧
    (shape1 [[(0 : ℚ), 2]] = (pyInt (2 * ((1 : ℕ) : ℚ))).toNat ∧
     shape1 [[(0 : ℚ), 1]] = (pyInt (2 * ((1 : ℕ) : ℚ))).toNat) := by
  constructor
  · refine C2_excerpt_length.1 dsAlHalf zeroDraw 1 0 0 3 (1 / 2) _ _ rfl (by decide) ?_
    norm_num +decide [AlignedSources.getitem, AlignedSources.attempt, dsAlHalf,
      fileMono3Hz, audioloader, readFrames, pyInt, fileDuration, uniform, zeroDraw,
      shape1, retryIndex, Int.toNat_ofNat, List.range_succ]
  · refine C2_excerpt_length.2 dsMixPair zeroDraw zeroPick 1 0 0 0 1 2 _ _ rfl
      (by norm_num) (by decide) (fun n => ⟨by norm_num [zeroDraw], by norm_num [zeroDraw]⟩) ?_
    norm_num +decide [MixedSources.getitem, MixedSources.getitemAux, mixedLoop, dsMixPair,
      lookupStem, pyChoice, fileMono1Hz8, fileDuration, uniform, audioloader, readFrames,
      pyInt, zeroDraw, zeroPick, retryIndex, torchStack, rowLens, waveSum, waveAdd,
      Int.toNat_ofNat, List.range_succ]
    simp [List.range_succ, Function.comp]
    norm_num
